import Mathlib

/-
  Shallow embedding of the bcp-charger-api protocol client (src/index.js).
  JavaScript strings are modelled as List Char; JavaScript numbers that can be
  NaN are modelled as Option Int (none = NaN) or Option Rat where a division
  by 10 occurs.  All definitions are transcribed from the source file.
-/

namespace Bcp

/-- Converts a Lean string literal to the List Char model of a JS string. -/
def toL (s : String) : List Char :=
  s.data

/-- Models JS String.prototype.substring(a, b) for a less or equal b:
both indices are clamped to the string length. -/
def jsSubstring (s : List Char) (a b : Nat) : List Char :=
  (s.take b).drop a

/-- Value of a single hex digit as accepted by JS parseInt with radix 16:
0-9, a-f and A-F.  Other characters have no value. -/
def hexDigitVal? (c : Char) : Option Nat :=
  if 48 ≤ c.toNat ∧ c.toNat ≤ 57 then some (c.toNat - 48)
  else if 97 ≤ c.toNat ∧ c.toNat ≤ 102 then some (c.toNat - 87)
  else if 65 ≤ c.toNat ∧ c.toNat ≤ 70 then some (c.toNat - 55)
  else none

/-- Value of a single decimal digit as accepted by JS parseInt with radix 10. -/
def decDigitVal? (c : Char) : Option Nat :=
  if 48 ≤ c.toNat ∧ c.toNat ≤ 57 then some (c.toNat - 48) else none

/-- Whitespace characters skipped by JS parseInt (the ASCII subset; the
claims never involve exotic Unicode whitespace). -/
def isJsWhitespace (c : Char) : Bool :=
  decide (c.toNat = 32 ∨ c.toNat = 9 ∨ c.toNat = 10 ∨
    c.toNat = 13 ∨ c.toNat = 11 ∨ c.toNat = 12)

/-- Accumulates the value of the longest digit prefix, given the value of the
digits consumed so far. -/
def digitsValAux (digit : Char → Option Nat) (base : Nat) :
    List Char → Nat → Nat
  | [], acc => acc
  | c :: rest, acc =>
    match digit c with
    | none => acc
    | some d => digitsValAux digit base rest (base * acc + d)

/-- Value of the longest nonempty digit prefix; none when the first character
is not a digit (JS parseInt then returns NaN). -/
def digitsVal (digit : Char → Option Nat) (base : Nat) :
    List Char → Option Nat
  | [] => none
  | c :: rest =>
    match digit c with
    | none => none
    | some d => some (digitsValAux digit base rest d)

/-- Strips a leading 0x or 0X marker, as JS parseInt does for radix 16. -/
def stripHexMarker : List Char → List Char
  | c1 :: c2 :: rest =>
    if c1 = '0' ∧ (c2 = 'x' ∨ c2 = 'X') then rest else c1 :: c2 :: rest
  | s => s

/-- Models JS parseInt(s, 16): skip whitespace, optional sign, optional 0x
marker, then the longest hex-digit prefix; none models NaN. -/
def jsParseIntHex (s : List Char) : Option Int :=
  match s.dropWhile isJsWhitespace with
  | [] => none
  | c :: rest =>
    if c = '-' then (digitsVal hexDigitVal? 16 (stripHexMarker rest)).map (fun n => -(n : Int))
    else if c = '+' then (digitsVal hexDigitVal? 16 (stripHexMarker rest)).map (fun n => (n : Int))
    else (digitsVal hexDigitVal? 16 (stripHexMarker (c :: rest))).map (fun n => (n : Int))

/-- Models JS parseInt(s, 10): skip whitespace, optional sign, then the
longest decimal-digit prefix; none models NaN. -/
def jsParseInt10 (s : List Char) : Option Int :=
  match s.dropWhile isJsWhitespace with
  | [] => none
  | c :: rest =>
    if c = '-' then (digitsVal decDigitVal? 10 rest).map (fun n => -(n : Int))
    else if c = '+' then (digitsVal decDigitVal? 10 rest).map (fun n => (n : Int))
    else (digitsVal decDigitVal? 10 (c :: rest)).map (fun n => (n : Int))

/-- Lowercase hex digit character for a value below 16. -/
def hexChar : Nat → Char
  | 0 => '0' | 1 => '1' | 2 => '2' | 3 => '3' | 4 => '4'
  | 5 => '5' | 6 => '6' | 7 => '7' | 8 => '8' | 9 => '9'
  | 10 => 'a' | 11 => 'b' | 12 => 'c' | 13 => 'd' | 14 => 'e'
  | 15 => 'f' | _ => '0'

/-- Digit-extraction loop with explicit fuel so that the kernel can reduce
it; the fuel never runs out because it starts at n + 1. -/
def natToHexAux : Nat → Nat → List Char → List Char
  | 0, _, acc => acc
  | fuel + 1, n, acc =>
    if n < 16 then hexChar n :: acc
    else natToHexAux fuel (n / 16) (hexChar (n % 16) :: acc)

/-- Models Number.prototype.toString(16) on a nonnegative integer. -/
def natToHex (n : Nat) : List Char :=
  natToHexAux (n + 1) n []

/-- Decimal digit character for a value below 10. -/
def decChar : Nat → Char
  | 0 => '0' | 1 => '1' | 2 => '2' | 3 => '3' | 4 => '4'
  | 5 => '5' | 6 => '6' | 7 => '7' | 8 => '8' | _ => '9'

/-- Digit-extraction loop for radix 10, with fuel as for natToHexAux. -/
def natToDecAux : Nat → Nat → List Char → List Char
  | 0, _, acc => acc
  | fuel + 1, n, acc =>
    if n < 10 then decChar n :: acc
    else natToDecAux fuel (n / 10) (decChar (n % 10) :: acc)

/-- Models Number.prototype.toString() (radix 10) on a nonnegative integer. -/
def natToDec (n : Nat) : List Char :=
  natToDecAux (n + 1) n []

/-- Models toString(16) on an integer (JS renders a minus sign). -/
def intToHex (i : Int) : List Char :=
  if i < 0 then '-' :: natToHex i.natAbs else natToHex i.toNat

/-- Models toString() on an integer. -/
def intToDec (i : Int) : List Char :=
  if i < 0 then '-' :: natToDec i.natAbs else natToDec i.toNat

/-- Models toString(16) on a JS number that may be NaN. -/
def jsNumToHexString (o : Option Int) : List Char :=
  match o with
  | none => toL ("NaN")
  | some i => intToHex i

/-- Models toString() on a JS number that may be NaN. -/
def jsNumToDecString (o : Option Int) : List Char :=
  match o with
  | none => toL ("NaN")
  | some i => intToDec i

/-- Models String.prototype.padStart(n, the zero character).  JS never
truncates: a longer string is returned unchanged. -/
def padStartZero (n : Nat) (s : List Char) : List Char :=
  List.replicate (n - s.length) '0' ++ s

/-- Models the JS test parseInt(x, 16) !== 0, where NaN compares unequal
to zero. -/
def jsNeZero (o : Option Int) : Bool :=
  match o with
  | none => true
  | some v => decide (v ≠ 0)

/-- Models the JS expression (x || 0): NaN (and zero) become zero. -/
def jsOrZero (o : Option Int) : Int :=
  match o with
  | none => 0
  | some v => v

/-- All characters of the list are hex digits. -/
def AllHex (l : List Char) : Prop :=
  ∀ c ∈ l, (hexDigitVal? c).isSome = true

instance (l : List Char) : Decidable (AllHex l) := by
  unfold AllHex
  infer_instance

namespace CommandUtil

/-- Sum of the byte values taken two hex characters at a time, as the loop in
CommandUtil.checksum does; none models NaN poisoning the running sum. -/
def sumBytes : List Char → Option Int
  | [] => some 0
  | [c] => jsParseIntHex [c]
  | c1 :: c2 :: rest =>
    match jsParseIntHex [c1, c2], sumBytes rest with
    | some v, some s => some (v + s)
    | _, _ => none

/-- Transcribes CommandUtil.checksum (src/index.js lines 1219-1238): empty or
odd-length input yields the string 00, otherwise the byte sum mod 256 rendered
as hex and padded to two digits.  The mod operator keeps the dividend sign as
in JS, and a NaN sum renders as the string NaN. -/
def checksum (input : List Char) : List Char :=
  if input = [] then toL ("00")
  else
    let inp := input.filter (fun c => c ≠ ' ')
    if inp.length % 2 ≠ 0 then toL ("00")
    else padStartZero 2 (jsNumToHexString ((sumBytes inp).map (fun s => Int.tmod s 256)))

/-- Transcribes CommandUtil.testChecksum (lines 1244-1248): the last two
characters must equal the checksum of everything before them. -/
def testChecksum (input : List Char) : Bool :=
  decide (checksum (input.take (input.length - 2)) = input.drop (input.length - 2))

/-- Models the stored password (a JS string property that may be absent);
`this.password || the default` picks the default when unset or empty. -/
def pwOrDefault (pw : Option (List Char)) : List Char :=
  match pw with
  | none => toL ("123456")
  | some p => if p = [] then toL ("123456") else p

/-- The credential as embedded in every outgoing frame (line 1257):
parseInt(password, 10).toString(16).padStart(8, the zero character). -/
def encodedCredential (pw : Option (List Char)) : List Char :=
  padStartZero 8 (jsNumToHexString (jsParseInt10 (pwOrDefault pw)))

/-- The frame before its checksum (lines 1258-1261): header, message id,
length byte, credential, command. -/
def frameBody (pw : Option (List Char)) (command : List Char) : List Char :=
  let encodedPwd := encodedCredential pw
  let len := (4 + 4 + encodedPwd.length + command.length) / 2 + 2
  toL ("55aa") ++ toL ("0001") ++ padStartZero 2 (natToHex len) ++ encodedPwd ++ command

/-- Transcribes CommandUtil.compileMessage (lines 1254-1263). -/
def compileMessage (pw : Option (List Char)) (command : List Char) : List Char :=
  frameBody pw command ++ checksum (frameBody pw command)

/-- A decoded inbound frame, as in the ParsedMessage typedef. -/
structure ParsedMessage where
  raw : List Char
  command : List Char
  data : List Char
deriving DecidableEq

/-- Transcribes CommandUtil.parseResult (lines 1269-1280). -/
def parseResult (input : List Char) : Option ParsedMessage :=
  if input = [] then none
  else if input.length < 13 then none
  else if ¬ (toL ("55aa")).isPrefixOf input then none
  else if ¬ testChecksum input then none
  else some { raw := input, command := jsSubstring input 10 12, data := input.drop 12 }

/-- Transcribes CommandUtil.decodeBoolean (lines 1286-1288). -/
def decodeBoolean (input : List Char) : Bool :=
  decide (jsSubstring input 0 2 = toL ("01"))

end CommandUtil

/-- Charger wiring mode (the ChargerMode enum), learned via the model query. -/
inductive ChargerMode
  | onePhase
  | threePhase
deriving DecidableEq

namespace ChargerController

/-- The ChargeFaultStatus record; the two fields added by later firmware are
optional, mirroring the conditional assignment in the source. -/
structure ChargeFaultStatus where
  overVoltage : Bool
  underVoltage : Bool
  overload : Bool
  highTemperature : Bool
  groundDetection : Bool
  leakage : Bool
  cpSignalAbnormal : Bool
  emergencyStopButton : Bool
  ccSignalAbnormal : Bool
  dlbWiring : Bool
  dlbOffline : Bool
  motorLock : Bool
  sticking : Option Bool
  contactor : Option Bool
deriving DecidableEq

/-- One fault flag: parseInt(result.substring(i, i + 2), 16) !== 0. -/
def flagAt (result : List Char) (i : Nat) : Bool :=
  jsNeZero (jsParseIntHex (jsSubstring result i (i + 2)))

/-- Transcribes the decode part of ChargerController.sendGetFaultStatus
(src/index.js lines 1799-1836); the network round trip is excluded, the
function maps the response data string to the status record. -/
def sendGetFaultStatus (result : List Char) : ChargeFaultStatus :=
  let isV108 := 26 ≤ result.length
  { overVoltage := flagAt result 0
    underVoltage := flagAt result 2
    overload := flagAt result 4
    highTemperature := flagAt result 6
    groundDetection := flagAt result 8
    leakage := flagAt result 10
    cpSignalAbnormal := flagAt result 12
    emergencyStopButton := flagAt result 14
    ccSignalAbnormal := flagAt result 16
    dlbWiring := flagAt result 18
    dlbOffline := flagAt result 20
    motorLock := flagAt result 22
    sticking := if isV108 then some (flagAt result 24) else none
    contactor := if isV108 then some (flagAt result 26) else none }

/-- The twelve always-present fault flags, in source order. -/
def flags12 (s : ChargeFaultStatus) : List Bool :=
  [s.overVoltage, s.underVoltage, s.overload, s.highTemperature,
   s.groundDetection, s.leakage, s.cpSignalAbnormal, s.emergencyStopButton,
   s.ccSignalAbnormal, s.dlbWiring, s.dlbOffline, s.motorLock]

/-- The ChargerRealTimeData record.  Fields that a given mode or firmware
generation does not produce are none; an inner none models NaN. -/
structure ChargerRealTimeData where
  electricCurrent : Option (Option Int) := none
  voltage : Option (Option Int) := none
  electricCurrentA : Option (Option Int) := none
  electricCurrentB : Option (Option Int) := none
  electricCurrentC : Option (Option Int) := none
  voltageA : Option (Option Int) := none
  voltageB : Option (Option Int) := none
  voltageC : Option (Option Int) := none
  power : Option ℚ := none
  totalPower : Option ℚ := none
  temperature : Option Int := none
  state : Option Int := none
  timedChargeEnabled : Bool := false
  startChargeTime : List Char := []
  endChargeTime : List Char := []
  maxCurrent : Option (Option Int) := none
  maxPower : Option (Option Int) := none
  isReservation : Option Bool := none
  isMaximum : Option Bool := none
  isExtremeMode : Option Bool := none

/-- One byte decoded to decimal text and padded to two characters, as in the
charge time fields: parseInt(..., 16).toString().padStart(2, zero). -/
def decByteAt (result : List Char) (p : Nat) : List Char :=
  padStartZero 2 (jsNumToDecString (jsParseIntHex (jsSubstring result p (p + 2))))

/-- A HH:MM:SS group of three bytes starting at position p. -/
def hhmmssAt (result : List Char) (p : Nat) : List Char :=
  decByteAt result p ++ [':'] ++ decByteAt result (p + 2) ++ [':'] ++ decByteAt result (p + 4)

/-- Transcribes the decode part of ChargerController.sendGetRealTimeData
(lines 1842-1930).  The mode branch fills the phase fields and sets the
cursor and the three length gates; the common trailer advances the cursor;
the V106 gate reads from fixed absolute offsets 46 to 52 while still
advancing the cursor by six characters. -/
def sendGetRealTimeData (mode : ChargerMode) (result : List Char) :
    ChargerRealTimeData :=
  let len := result.length
  let base : ChargerRealTimeData × Nat × Bool × Bool × Bool :=
    match mode with
    | ChargerMode.onePhase =>
      ({ electricCurrent := some (jsParseIntHex (jsSubstring result 0 4)),
         voltage := some (jsParseIntHex (jsSubstring result 4 8)) },
       8, decide (36 ≤ len), decide (42 ≤ len), decide (44 ≤ len))
    | ChargerMode.threePhase =>
      ({ electricCurrentA := some (jsParseIntHex (jsSubstring result 0 2)),
         electricCurrentB := some (jsParseIntHex (jsSubstring result 2 4)),
         electricCurrentC := some (jsParseIntHex (jsSubstring result 4 6)),
         voltageA := some (jsParseIntHex (jsSubstring result 6 10)),
         voltageB := some (jsParseIntHex (jsSubstring result 10 14)),
         voltageC := some (jsParseIntHex (jsSubstring result 14 18)) },
       18, decide (46 ≤ len), decide (52 ≤ len), decide (54 ≤ len))
  let d0 := base.1
  let ptr := base.2.1
  let isV106 := base.2.2.1
  let isV108 := base.2.2.2.1
  let isV110 := base.2.2.2.2
  let st0 := jsParseIntHex (jsSubstring result (ptr + 10) (ptr + 12))
  let st := if st0 = some 4 then some 1 else if st0 = some 3 then some 2 else st0
  let d1 : ChargerRealTimeData :=
    { d0 with
      power := (jsParseIntHex (jsSubstring result ptr (ptr + 4))).map (fun v => (v : ℚ) / 10)
      totalPower := (jsParseIntHex (jsSubstring result (ptr + 4) (ptr + 8))).map (fun v => (v : ℚ) / 10)
      temperature := (jsParseIntHex (jsSubstring result (ptr + 8) (ptr + 10))).map (fun v => v - 100)
      state := st
      timedChargeEnabled := decide (jsSubstring result (ptr + 12) (ptr + 14) ≠ toL ("00"))
      startChargeTime := hhmmssAt result (ptr + 14)
      endChargeTime := hhmmssAt result (ptr + 20) }
  let ptr1 := ptr + 26
  let g : ChargerRealTimeData × Nat :=
    if isV106 then
      ({ d1 with
         maxCurrent := some (jsParseIntHex (jsSubstring result 46 48))
         maxPower := some (jsParseIntHex (jsSubstring result 48 50))
         isReservation := some (decide (jsParseIntHex (jsSubstring result 50 52) = some 1)) },
       ptr1 + 6)
    else (d1, ptr1)
  let g2 : ChargerRealTimeData × Nat :=
    if isV108 then
      ({ g.1 with
         isMaximum := some (decide (jsParseIntHex (jsSubstring result g.2 (g.2 + 2)) = some 1)) },
       g.2 + 2)
    else g
  if isV110 then
    { g2.1 with
      isExtremeMode := some (decide (jsParseIntHex (jsSubstring result g2.2 (g2.2 + 2)) = some 1)) }
  else g2.1

/-- Gregorian leap year test, for the calendar model below. -/
def isLeapYear (y : Int) : Bool :=
  (y % 4 == 0 && y % 100 != 0) || y % 400 == 0

/-- Models the JS builtin expression new Date(year, month, 0).getDate() for a
calendar month argument between 1 and 12: the number of days in that month of
that year.  The Date object itself is a platform builtin, outside the
repository source; its behaviour here follows the ECMAScript proleptic
Gregorian calendar. -/
def monthLastDay (year month : Int) : Nat :=
  if month = 2 then (if isLeapYear year then 29 else 28)
  else if month = 4 ∨ month = 6 ∨ month = 9 ∨ month = 11 then 30
  else 31

/-- The PowerConsumptionRecordsOfMonth record. -/
structure PowerConsumptionRecordsOfMonth where
  isEffective : Bool
  days : List ℚ
deriving DecidableEq

/-- The date payload built by sendGetPowerConsumptionRecordsOfMonth
(lines 2113-2114): a year byte, clamped to 0 below the year 2000, and a
month byte. -/
def consumptionOfMonthDate (year month : Int) : List Char :=
  padStartZero 2 (intToHex (if year < 2000 then 0 else year - 2000)) ++
  padStartZero 2 (intToHex (month - 1))

/-- Transcribes the decode part of
ChargerController.sendGetPowerConsumptionRecordsOfMonth (lines 2112-2134):
a one-byte effective flag then monthLastDay two-byte values divided by 10,
the count computed from the calendar arguments, not from the payload. -/
def sendGetPowerConsumptionRecordsOfMonth (year month : Int) (result : List Char) :
    PowerConsumptionRecordsOfMonth :=
  let lastDay := monthLastDay year month
  { isEffective := decide (jsSubstring result 0 2 = toL ("01"))
    days := (List.range lastDay).map
      (fun i => ((jsOrZero (jsParseIntHex (jsSubstring result (2 + 4 * i) (2 + 4 * i + 4))) : ℚ) / 10)) }

/-- Models Math.trunc on a rational JS number: truncation toward zero. -/
def jsTrunc (q : ℚ) : Int :=
  if q < 0 then ⌈q⌉ else ⌊q⌋

/-- Transcribes the command string built by ChargerController.sendSetMaxCurrent
(lines 1788-1793): the SetMaxCurrent code 6d followed by
Math.min(Math.trunc(maxCurrent), 0xff).toString(16).padStart(4, zero). -/
def sendSetMaxCurrent (maxCurrent : ℚ) : List Char :=
  toL ("6d") ++ padStartZero 4 (intToHex (min (jsTrunc maxCurrent) 255))

/-- Transcribes the state effect of ChargerController.sendSetPassword
(lines 1589-1604): once any response arrives, the stored util password is
assigned the new password unconditionally, and the decoded boolean from the
response data is returned.  The first component is the stored password after
the call, the second the returned success value. -/
def sendSetPassword (_stored : Option (List Char)) (newPassword responseData : List Char) :
    Option (List Char) × Bool :=
  (some newPassword, CommandUtil.decodeBoolean responseData)

end ChargerController

namespace Session

/-- Final state of the promise returned by sendCommand when a response is
awaited. -/
inductive WaiterOutcome
  | pending
  | resolved (m : CommandUtil.ParsedMessage)
  | timedOut
deriving DecidableEq

/-- State of one waiter on the shared socket: whether its message listener is
registered, whether its timeout timer is armed, and the promise state. -/
structure WaiterState where
  listening : Bool
  timerArmed : Bool
  outcome : WaiterOutcome
deriving DecidableEq

/-- Events delivered to a waiter by the event loop: an inbound datagram or the
firing of its timeout timer. -/
inductive SockEvent
  | inbound (raw : List Char)
  | timerFire
deriving DecidableEq

/-- State right after sendCommand registers the listener (lines 1541-1562):
the listener is on, and the timer is armed only when the configured timeout is
positive (a zero timeout never registers the timer). -/
def waiterInit (resultTimeout : Nat) : WaiterState :=
  { listening := true, timerArmed := decide (0 < resultTimeout), outcome := WaiterOutcome.pending }

/-- Transcribes the body of the onMessage listener (lines 1542-1553): parse
the datagram, drop parse failures, drop frames whose command differs from the
expected result code or that the optional result tester rejects; some m means
the listener resolves with m. -/
def accepts (resultCode : List Char) (resultTester : Option (CommandUtil.ParsedMessage → Bool))
    (raw : List Char) : Option CommandUtil.ParsedMessage :=
  match CommandUtil.parseResult raw with
  | none => none
  | some m =>
    if m.command ≠ resultCode then none
    else
      match resultTester with
      | none => some m
      | some t => if t m then some m else none

/-- A JS promise settles only once: later settle attempts are ignored. -/
def settle (o : WaiterOutcome) (o2 : WaiterOutcome) : WaiterOutcome :=
  match o with
  | WaiterOutcome.pending => o2
  | _ => o

/-- One event-loop step for a waiter.  An inbound datagram is seen only while
the listener is registered; a match removes the listener and resolves.  The
timer callback (lines 1557-1562) removes the listener and rejects with the
timeout error; it can only run while the timer is armed. -/
def step (resultCode : List Char) (resultTester : Option (CommandUtil.ParsedMessage → Bool))
    (s : WaiterState) : SockEvent → WaiterState
  | SockEvent.inbound raw =>
    if s.listening then
      match accepts resultCode resultTester raw with
      | none => s
      | some m =>
        { listening := false, timerArmed := s.timerArmed,
          outcome := settle s.outcome (WaiterOutcome.resolved m) }
    else s
  | SockEvent.timerFire =>
    if s.timerArmed then
      { listening := false, timerArmed := false,
        outcome := settle s.outcome WaiterOutcome.timedOut }
    else s

/-- Runs a waiter over a sequence of event-loop events. -/
def runWaiter (resultCode : List Char)
    (resultTester : Option (CommandUtil.ParsedMessage → Bool))
    (s : WaiterState) (evs : List SockEvent) : WaiterState :=
  evs.foldl (step resultCode resultTester) s

end Session

/-
  Theorems.
-/

/-- C2: parseResult returns no value exactly when the input is empty, shorter
than 13 characters, does not start with the fixed 55aa header, or its last two
characters differ from the checksum of everything before them; in every other
case it returns the record with the raw input, the command at characters 10 to
12, and the data from character 12 on. -/
theorem parseResult_gate_spec (input : List Char) :
    CommandUtil.parseResult input =
      if input = [] ∨ input.length < 13 ∨ ¬ (toL ("55aa")) <+: input ∨
          CommandUtil.checksum (input.take (input.length - 2)) ≠ input.drop (input.length - 2)
      then none
      else some { raw := input, command := jsSubstring input 10 12, data := input.drop 12 } := by
  unfold CommandUtil.parseResult CommandUtil.testChecksum
  split_ifs <;> simp_all <;> omega

/-- C1 counterexample: for the command string 04, parseResult of
compileMessage succeeds but its command field is 00, the first byte of the
encoded credential, not the command prefix 04. -/
theorem compile_parse_roundTrip_counterexample :
    (CommandUtil.parseResult (CommandUtil.compileMessage none (toL ("04")))).map
        (fun m => m.command) = some (toL ("00")) ∧
    toL ("00") ≠ toL ("04") :=
  ⟨by decide, by decide⟩

/-- C7: evaluating the sendSetPassword effect at a refusal response (data 00,
decoded boolean false) shows the stored credential is nevertheless replaced by
the new password, contradicting the update-only-on-success specification. -/
theorem sendSetPassword_refusal_updates_stored :
    (ChargerController.sendSetPassword (some (toL ("123456"))) (toL ("654321")) (toL ("00"))).2 = false ∧
    (ChargerController.sendSetPassword (some (toL ("123456"))) (toL ("654321")) (toL ("00"))).1 = some (toL ("654321")) ∧
    some (toL ("654321")) ≠ some (toL ("123456")) :=
  ⟨by decide, by decide, by decide⟩

/-- C9 counterexample: a GetFaultStatus payload of 27 hex characters whose
last digit is zero decodes contactor as false, not true: the single trailing
digit parses as zero rather than NaN. -/
theorem faultStatus_len27_contactor_counterexample :
    (ChargerController.sendGetFaultStatus (List.replicate 27 '0')).contactor = some false ∧
    (List.replicate 27 '0').length = 27 ∧ AllHex (List.replicate 27 '0') :=
  ⟨by decide, by decide, by decide⟩

/-- C10: the SetMaxCurrent request payload is min(trunc(maxCurrent), 255)
rendered as hex zero-padded to four digits, and any requested value above 255
is clamped and sent as 00ff. -/
theorem sendSetMaxCurrent_clamp (maxCurrent : ℚ) :
    (ChargerController.sendSetMaxCurrent maxCurrent).drop 2 =
      padStartZero 4 (intToHex (min (ChargerController.jsTrunc maxCurrent) 255)) ∧
    ChargerController.sendSetMaxCurrent maxCurrent =
      toL ("6d") ++ padStartZero 4 (intToHex (min (ChargerController.jsTrunc maxCurrent) 255)) ∧
    (255 < maxCurrent → ChargerController.sendSetMaxCurrent maxCurrent = toL ("6d00ff")) := by
  refine ⟨by simp [ChargerController.sendSetMaxCurrent, toL], rfl, fun h => ?_⟩
  have h0 : ¬ (maxCurrent < 0) := by linarith
  have htr : ChargerController.jsTrunc maxCurrent = ⌊maxCurrent⌋ := by
    unfold ChargerController.jsTrunc
    rw [if_neg h0]
  have h255 : (255 : ℤ) ≤ ⌊maxCurrent⌋ := by
    rw [Int.le_floor]
    exact_mod_cast h.le
  have hmin : min (ChargerController.jsTrunc maxCurrent) 255 = 255 := by
    rw [htr]
    exact min_eq_right h255
  unfold ChargerController.sendSetMaxCurrent
  rw [hmin]
  decide

/-- C10 witness: the clamping theorem applied at the concrete request 300. -/
theorem sendSetMaxCurrent_clamp_witness :
    (255 : ℚ) < 300 ∧ ChargerController.sendSetMaxCurrent 300 = toL ("6d00ff") :=
  ⟨by norm_num, (sendSetMaxCurrent_clamp 300).2.2 (by norm_num)⟩

/-
  Hex-digit and rendering infrastructure lemmas.
-/

/-- A successful hex digit lies in one of the three ASCII digit ranges. -/
theorem hexDigitVal?_ranges {c : Char} {d : Nat} (h : hexDigitVal? c = some d) :
    (48 ≤ c.toNat ∧ c.toNat ≤ 57 ∧ d = c.toNat - 48) ∨
    (97 ≤ c.toNat ∧ c.toNat ≤ 102 ∧ d = c.toNat - 87) ∨
    (65 ≤ c.toNat ∧ c.toNat ≤ 70 ∧ d = c.toNat - 55) := by
  unfold hexDigitVal? at h
  split_ifs at h with h1 h2 h3 <;> simp_all

/-- A hex digit character differs from any character whose code lies outside
the three digit ranges. -/
theorem hexDigit_ne {c : Char} (h : (hexDigitVal? c).isSome = true) (c2 : Char)
    (hc2 : c2.toNat < 48 ∨ (57 < c2.toNat ∧ c2.toNat < 65) ∨
      (70 < c2.toNat ∧ c2.toNat < 97) ∨ 102 < c2.toNat) : c ≠ c2 := by
  obtain ⟨d, hd⟩ := Option.isSome_iff_exists.mp h
  have hr := hexDigitVal?_ranges hd
  intro he
  rw [he] at hr
  omega

/-- A hex digit is not JS whitespace. -/
theorem hexDigit_not_ws {c : Char} (h : (hexDigitVal? c).isSome = true) :
    isJsWhitespace c = false := by
  obtain ⟨d, hd⟩ := Option.isSome_iff_exists.mp h
  have hr := hexDigitVal?_ranges hd
  unfold isJsWhitespace
  simp only [decide_eq_false_iff_not]
  omega

/-- jsParseIntHex on a string headed by a hex digit is the value of its digit
prefix: no whitespace is skipped and no sign or 0x marker is consumed. -/
theorem jsParseIntHex_hexHead {c : Char} {d : Nat} (rest : List Char)
    (h : hexDigitVal? c = some d) :
    jsParseIntHex (c :: rest) =
      (digitsVal hexDigitVal? 16 (stripHexMarker (c :: rest))).map (fun n => (n : Int)) := by
  have hs : (hexDigitVal? c).isSome = true := by rw [h]; rfl
  have hws := hexDigit_not_ws hs
  have hminus : c ≠ '-' := hexDigit_ne hs '-' (by decide)
  have hplus : c ≠ '+' := hexDigit_ne hs '+' (by decide)
  unfold jsParseIntHex
  rw [List.dropWhile_cons_of_neg (by simp [hws])]
  dsimp only
  rw [if_neg hminus, if_neg hplus]

/-- A two-hex-digit string parses to its byte value. -/
theorem jsParseIntHex_pair {c1 c2 : Char} {d1 d2 : Nat}
    (h1 : hexDigitVal? c1 = some d1) (h2 : hexDigitVal? c2 = some d2) :
    jsParseIntHex [c1, c2] = some ((16 * d1 + d2 : Nat) : Int) := by
  rw [jsParseIntHex_hexHead [c2] h1]
  have hs2 : (hexDigitVal? c2).isSome = true := by rw [h2]; rfl
  have hx : c2 ≠ 'x' := hexDigit_ne hs2 'x' (by decide)
  have hX : c2 ≠ 'X' := hexDigit_ne hs2 'X' (by decide)
  have hm : stripHexMarker [c1, c2] = [c1, c2] := by
    unfold stripHexMarker
    dsimp only
    rw [if_neg (by tauto)]
  rw [hm]
  simp [digitsVal, digitsValAux, h1, h2]

/-- A single-hex-digit string parses to its digit value. -/
theorem jsParseIntHex_single {c : Char} {d : Nat} (h : hexDigitVal? c = some d) :
    jsParseIntHex [c] = some ((d : Nat) : Int) := by
  rw [jsParseIntHex_hexHead [] h]
  have hm : stripHexMarker [c] = [c] := rfl
  rw [hm]
  simp [digitsVal, digitsValAux, h]

/-- The byte-pair sum of an all-hex string is a nonnegative number. -/
theorem sumBytes_allHex : ∀ (l : List Char), AllHex l →
    ∃ s : Nat, CommandUtil.sumBytes l = some ((s : Nat) : Int)
  | [], _ => ⟨0, rfl⟩
  | [c], h => by
    obtain ⟨d, hd⟩ := Option.isSome_iff_exists.mp (h c (by simp))
    exact ⟨d, by simp [CommandUtil.sumBytes, jsParseIntHex_single hd]⟩
  | c1 :: c2 :: rest, h => by
    obtain ⟨d1, hd1⟩ := Option.isSome_iff_exists.mp (h c1 (by simp))
    obtain ⟨d2, hd2⟩ := Option.isSome_iff_exists.mp (h c2 (by simp))
    obtain ⟨s, hs⟩ := sumBytes_allHex rest (fun c hc => h c (by simp [hc]))
    refine ⟨16 * d1 + d2 + s, ?_⟩
    simp only [CommandUtil.sumBytes, jsParseIntHex_pair hd1 hd2, hs]
    push_cast
    ring_nf

/-- Every character produced by hexChar on a value below 16 is a hex digit,
with the same value. -/
theorem hexChar_val : ∀ k : Nat, k < 16 → hexDigitVal? (hexChar k) = some k := by
  decide

/-- The rendering loop produces only hex digits. -/
theorem natToHexAux_allHex : ∀ (fuel n : Nat) (acc : List Char),
    (∀ c ∈ acc, (hexDigitVal? c).isSome = true) →
    ∀ c ∈ natToHexAux fuel n acc, (hexDigitVal? c).isSome = true := by
  intro fuel
  induction fuel with
  | zero =>
    intro n acc hacc c hc
    exact hacc c hc
  | succ f ih =>
    intro n acc hacc c hc
    unfold natToHexAux at hc
    by_cases hn : n < 16
    · rw [if_pos hn] at hc
      rcases List.mem_cons.mp hc with hce | hce
      · rw [hce, hexChar_val n hn]; rfl
      · exact hacc c hce
    · rw [if_neg hn] at hc
      refine ih (n / 16) (hexChar (n % 16) :: acc) ?_ c hc
      intro c2 hc2
      rcases List.mem_cons.mp hc2 with hce | hce
      · rw [hce, hexChar_val (n % 16) (by omega)]; rfl
      · exact hacc c2 hce

/-- Length bound for the rendering loop: a value below 16 to the k renders in
at most k digits. -/
theorem natToHexAux_length : ∀ (fuel n : Nat) (acc : List Char) (k : Nat),
    n < fuel → 0 < k → n < 16 ^ k →
    (natToHexAux fuel n acc).length ≤ k + acc.length := by
  intro fuel
  induction fuel with
  | zero => omega
  | succ f ih =>
    intro n acc k hfuel hk hpow
    unfold natToHexAux
    by_cases hn : n < 16
    · rw [if_pos hn]
      simp only [List.length_cons]
      omega
    · rw [if_neg hn]
      have hdiv : n / 16 < n := Nat.div_lt_self (by omega) (by omega)
      rcases k with _ | k
      · omega
      rcases k with _ | k
      · norm_num at hpow; omega
      have hq : n / 16 < 16 ^ (k + 1) := by
        rw [Nat.div_lt_iff_lt_mul (by omega)]
        calc n < 16 ^ (k + 2) := hpow
        _ = 16 ^ (k + 1) * 16 := by ring
      have := ih (n / 16) (hexChar (n % 16) :: acc) (k + 1) (by omega) (by omega) hq
      simp only [List.length_cons] at this
      omega

/-- natToHex produces only hex digits. -/
theorem natToHex_allHex (n : Nat) : AllHex (natToHex n) := by
  intro c hc
  exact natToHexAux_allHex (n + 1) n [] (by simp) c hc

/-- natToHex of a value below 16 to the k has at most k digits. -/
theorem natToHex_length_le {n k : Nat} (hk : 0 < k) (h : n < 16 ^ k) :
    (natToHex n).length ≤ k := by
  have hb := natToHexAux_length (n + 1) n [] k (by omega) hk h
  simp only [List.length_nil] at hb
  unfold natToHex
  omega

/-- Length of zero padding: the maximum of the target width and the length. -/
theorem padStartZero_length (n : Nat) (s : List Char) :
    (padStartZero n s).length = max n s.length := by
  simp [padStartZero]
  omega

/-- Zero padding preserves hexness. -/
theorem padStartZero_allHex {s : List Char} (h : AllHex s) (n : Nat) :
    AllHex (padStartZero n s) := by
  intro c hc
  rcases List.mem_append.mp hc with hc | hc
  · rw [List.eq_of_mem_replicate hc]
    rfl
  · exact h c hc

/-- Appending preserves hexness. -/
theorem allHex_append {a b : List Char} (ha : AllHex a) (hb : AllHex b) :
    AllHex (a ++ b) := by
  intro c hc
  rcases List.mem_append.mp hc with hc | hc
  · exact ha c hc
  · exact hb c hc

/-- Hex digits are not spaces, so the space filter in checksum is a no-op. -/
theorem filter_space_allHex {l : List Char} (h : AllHex l) :
    l.filter (fun c => c ≠ ' ') = l := by
  apply List.filter_eq_self.mpr
  intro c hc
  simp only [decide_eq_true_eq]
  exact hexDigit_ne (h c hc) ' ' (by decide)

/-- checksum of an all-hex even-length string is its byte sum mod 256,
rendered in hex and padded to two digits. -/
theorem checksum_allHex_even {l : List Char} (h : AllHex l) (he : l.length % 2 = 0) :
    ∃ m : Nat, m < 256 ∧ CommandUtil.checksum l = padStartZero 2 (natToHex m) := by
  obtain ⟨s, hs⟩ := sumBytes_allHex l h
  refine ⟨s % 256, by omega, ?_⟩
  unfold CommandUtil.checksum
  by_cases hnil : l = []
  · subst hnil
    have hs0 : s = 0 := by
      have h0 : some (0 : Int) = some ((s : Nat) : Int) := hs
      have h1 := Option.some.inj h0
      exact_mod_cast h1.symm
    subst hs0
    rw [if_pos rfl]
    decide
  rw [if_neg hnil]
  rw [filter_space_allHex h]
  rw [if_neg (by omega)]
  rw [hs]
  have htmod : Int.tmod ((s : Nat) : Int) 256 = ((s % 256 : Nat) : Int) := rfl
  simp only [Option.map_some', htmod]
  unfold jsNumToHexString intToHex
  dsimp only
  rw [if_neg (not_lt.mpr (Int.natCast_nonneg _)), Int.toNat_natCast]

/-- checksum of an all-hex string (either parity) has length two and is hex. -/
theorem checksum_allHex_shape {l : List Char} (h : AllHex l) :
    (CommandUtil.checksum l).length = 2 ∧ AllHex (CommandUtil.checksum l) := by
  by_cases he : l.length % 2 = 0
  · obtain ⟨m, hm, heq⟩ := checksum_allHex_even h he
    rw [heq]
    constructor
    · rw [padStartZero_length]
      have : (natToHex m).length ≤ 2 := natToHex_length_le (by omega) (by omega)
      omega
    · exact padStartZero_allHex (natToHex_allHex m) 2
  · have heq : CommandUtil.checksum l = toL ("00") := by
      unfold CommandUtil.checksum
      by_cases hnil : l = []
      · rw [if_pos hnil]
      rw [if_neg hnil, filter_space_allHex h, if_pos (by omega)]
    rw [heq]
    exact ⟨rfl, by decide⟩

/-- Appending the checksum of an all-hex string passes the checksum test. -/
theorem testChecksum_self_append {l : List Char} (h : AllHex l) :
    CommandUtil.testChecksum (l ++ CommandUtil.checksum l) = true := by
  have h2 := (checksum_allHex_shape h).1
  unfold CommandUtil.testChecksum
  have hlen : (l ++ CommandUtil.checksum l).length = l.length + 2 := by
    simp [h2]
  rw [hlen]
  have hsub : l.length + 2 - 2 = l.length := by omega
  rw [hsub]
  rw [List.take_left, List.drop_left]
  simp

/-- Dropping past the first part of an append lands in the second part. -/
theorem drop_append_ge {p x : List Char} {a : Nat} (ha : p.length ≤ a) :
    (p ++ x).drop a = x.drop (a - p.length) := by
  rw [List.drop_append_eq_append_drop, List.drop_eq_nil_of_le ha, List.nil_append]

/-- A substring taken entirely past the first part of an append is a substring
of the second part. -/
theorem jsSubstring_append_ge {p x : List Char} {a b : Nat} (ha : p.length ≤ a)
    (hb : p.length ≤ b) :
    jsSubstring (p ++ x) a b = jsSubstring x (a - p.length) (b - p.length) := by
  unfold jsSubstring
  rw [List.take_append_eq_append_take, List.take_of_length_le hb]
  rw [drop_append_ge ha]

/-- A fault flag at an offset below 24 depends only on the first 24 payload
characters. -/
theorem flagAt_take {p q : List Char} {i : Nat} (h2 : i + 2 ≤ 24)
    (h : p.take 24 = q.take 24) :
    ChargerController.flagAt p i = ChargerController.flagAt q i := by
  unfold ChargerController.flagAt jsSubstring
  have hp : p.take (i + 2) = q.take (i + 2) := by
    have hp1 : (p.take 24).take (i + 2) = p.take (i + 2) := by
      rw [List.take_take, min_eq_left h2]
    have hq1 : (q.take 24).take (i + 2) = q.take (i + 2) := by
      rw [List.take_take, min_eq_left h2]
    rw [← hp1, ← hq1, h]
  rw [hp]

/-- C3: the twelve fault flags are always decoded from the first 24 hex
characters; sticking and contactor are present exactly when the payload holds
at least 26 characters; a 24-character payload yields the twelve flags with
sticking and contactor absent, and the same payload extended with the four
characters 0101 yields the same flags plus sticking true and contactor
true. -/
theorem faultStatus_layout :
    (∀ p q : List Char, p.take 24 = q.take 24 →
        ChargerController.flags12 (ChargerController.sendGetFaultStatus p) =
          ChargerController.flags12 (ChargerController.sendGetFaultStatus q)) ∧
    (∀ p : List Char,
        ((ChargerController.sendGetFaultStatus p).sticking ≠ none ∧
          (ChargerController.sendGetFaultStatus p).contactor ≠ none) ↔ 26 ≤ p.length) ∧
    (∀ p : List Char, p.length = 24 →
        (ChargerController.sendGetFaultStatus p).sticking = none ∧
        (ChargerController.sendGetFaultStatus p).contactor = none ∧
        ChargerController.flags12 (ChargerController.sendGetFaultStatus (p ++ toL ("0101"))) =
          ChargerController.flags12 (ChargerController.sendGetFaultStatus p) ∧
        (ChargerController.sendGetFaultStatus (p ++ toL ("0101"))).sticking = some true ∧
        (ChargerController.sendGetFaultStatus (p ++ toL ("0101"))).contactor = some true) := by
  have hflags : ∀ p q : List Char, p.take 24 = q.take 24 →
      ChargerController.flags12 (ChargerController.sendGetFaultStatus p) =
        ChargerController.flags12 (ChargerController.sendGetFaultStatus q) := by
    intro p q h
    unfold ChargerController.flags12 ChargerController.sendGetFaultStatus
    dsimp only
    rw [flagAt_take (i := 0) (by omega) h, flagAt_take (i := 2) (by omega) h,
      flagAt_take (i := 4) (by omega) h, flagAt_take (i := 6) (by omega) h,
      flagAt_take (i := 8) (by omega) h, flagAt_take (i := 10) (by omega) h,
      flagAt_take (i := 12) (by omega) h, flagAt_take (i := 14) (by omega) h,
      flagAt_take (i := 16) (by omega) h, flagAt_take (i := 18) (by omega) h,
      flagAt_take (i := 20) (by omega) h, flagAt_take (i := 22) (by omega) h]
  refine ⟨hflags, ?_, ?_⟩
  · intro p
    by_cases h26 : 26 ≤ p.length <;> simp [ChargerController.sendGetFaultStatus, h26]
  · intro p hp
    have h1 : ¬ (26 ≤ p.length) := by omega
    have happ : (p ++ toL ("0101")).length = 28 := by simp [hp]; rfl
    have h2 : 26 ≤ (p ++ toL ("0101")).length := by omega
    have htake : (p ++ toL ("0101")).take 24 = p.take 24 := by
      rw [List.take_append_eq_append_take]
      have h0 : 24 - p.length = 0 := by omega
      rw [h0]
      simp
    have hstick : jsSubstring (p ++ toL ("0101")) 24 (24 + 2) = toL ("01") := by
      rw [jsSubstring_append_ge (by omega) (by omega), hp]
      decide
    have hcont : jsSubstring (p ++ toL ("0101")) 26 (26 + 2) = toL ("01") := by
      rw [jsSubstring_append_ge (by omega) (by omega), hp]
      decide
    refine ⟨?_, ?_, hflags _ _ htake, ?_, ?_⟩
    · simp [ChargerController.sendGetFaultStatus, h1]
    · simp [ChargerController.sendGetFaultStatus, h1]
    · unfold ChargerController.sendGetFaultStatus
      dsimp only
      rw [if_pos h2]
      unfold ChargerController.flagAt
      rw [hstick]
      decide
    · unfold ChargerController.sendGetFaultStatus
      dsimp only
      rw [if_pos h2]
      unfold ChargerController.flagAt
      rw [hcont]
      decide

/-- C3 witness: the layout theorem applied to a concrete 24-character payload,
its extension by 0101, and a 26-character extension sharing the first 24
characters. -/
theorem faultStatus_layout_witness :
    ChargerController.flags12 (ChargerController.sendGetFaultStatus (toL ("010000000000000000000000"))) =
      ChargerController.flags12 (ChargerController.sendGetFaultStatus (toL ("010000000000000000000000") ++ toL ("ff"))) ∧
    (ChargerController.sendGetFaultStatus (toL ("010000000000000000000000"))).sticking = none ∧
    (ChargerController.sendGetFaultStatus (toL ("010000000000000000000000") ++ toL ("0101"))).sticking = some true ∧
    (ChargerController.sendGetFaultStatus (toL ("010000000000000000000000") ++ toL ("0101"))).contactor = some true := by
  obtain ⟨hs, hc, hf, hst, hco⟩ :=
    faultStatus_layout.2.2 (toL ("010000000000000000000000")) (by decide)
  exact ⟨faultStatus_layout.1 _ _ (by decide), hs, hst, hco⟩

/-- C9 amended: for a GetFaultStatus payload of exactly 26 hex characters the
contactor field is present and true regardless of content (the parsed
substring is empty, and NaN compares unequal to zero); for a payload of
exactly 27 characters ending in a hex digit, contactor is present and equals
whether that single trailing digit is nonzero. -/
theorem faultStatus_short_tail_contactor :
    (∀ p : List Char, p.length = 26 →
        (ChargerController.sendGetFaultStatus p).contactor = some true) ∧
    (∀ (q : List Char) (c : Char) (d : Nat), q.length = 26 → hexDigitVal? c = some d →
        (ChargerController.sendGetFaultStatus (q ++ [c])).contactor =
          some (decide (d ≠ 0))) := by
  constructor
  · intro p hp
    have h26 : 26 ≤ p.length := by omega
    have hsub : jsSubstring p 26 (26 + 2) = [] := by
      unfold jsSubstring
      rw [List.take_of_length_le (by omega), List.drop_eq_nil_of_le (by omega)]
    simp [ChargerController.sendGetFaultStatus, h26, ChargerController.flagAt, hsub]
    decide
  · intro q c d hq hd
    have hlen : (q ++ [c]).length = 27 := by simp [hq]
    have h26 : 26 ≤ (q ++ [c]).length := by omega
    have hsub : jsSubstring (q ++ [c]) 26 (26 + 2) = [c] := by
      rw [jsSubstring_append_ge (by omega) (by omega), hq]
      simp [jsSubstring]
    have hparse : jsParseIntHex [c] = some ((d : Nat) : Int) := jsParseIntHex_single hd
    simp [ChargerController.sendGetFaultStatus, h26, ChargerController.flagAt, hsub,
      hparse, jsNeZero]
    omega

/-- C9 witness: the amended theorem applied at a 26-character payload and at a
27-character payload ending in the digit 7. -/
theorem faultStatus_short_tail_contactor_witness :
    (ChargerController.sendGetFaultStatus (List.replicate 26 'f')).contactor = some true ∧
    (ChargerController.sendGetFaultStatus (List.replicate 26 '0' ++ ['7'])).contactor =
      some (decide ((7 : Nat) ≠ 0)) :=
  ⟨faultStatus_short_tail_contactor.1 (List.replicate 26 'f') (by decide),
   faultStatus_short_tail_contactor.2 (List.replicate 26 '0') '7' 7 (by decide) (by decide)⟩

/-- C5 counterexample: the request payloads for years 1999 and 2000 coincide
although the two values of (year - 2000) differ, so the payload does not
encode (year - 2000): the code clamps the year byte at 0 below the year
2000. -/
theorem consumptionOfMonth_year_counterexample :
    ChargerController.consumptionOfMonthDate 1999 1 =
      ChargerController.consumptionOfMonthDate 2000 1 ∧
    (1999 - 2000 : Int) ≠ (2000 - 2000 : Int) :=
  ⟨by decide, by decide⟩

/-- C5 amended: for a year at least 2000 and a calendar month between 1 and
12, the request payload encodes (year - 2000) and (month - 1) as one hex byte
each; the decoded days array always contains exactly monthLastDay(year, month)
entries, each a two-byte value (or 0 when unparsable) divided by 10, read
after the one-byte isEffective flag (true exactly when the payload starts with
01), the count coming from the calendar arguments regardless of the payload;
for (2024, 2) the count is 29. -/
theorem consumptionOfMonth_spec (year month : Int)
    (hy : 2000 ≤ year) (hm1 : 1 ≤ month) (hm2 : month ≤ 12) :
    ChargerController.consumptionOfMonthDate year month =
      padStartZero 2 (intToHex (year - 2000)) ++ padStartZero 2 (intToHex (month - 1)) ∧
    (∀ result : List Char,
      (ChargerController.sendGetPowerConsumptionRecordsOfMonth year month result).days.length =
        ChargerController.monthLastDay year month ∧
      (ChargerController.sendGetPowerConsumptionRecordsOfMonth year month result).isEffective =
        decide (jsSubstring result 0 2 = toL ("01")) ∧
      (∀ i : Nat, i < ChargerController.monthLastDay year month →
        (ChargerController.sendGetPowerConsumptionRecordsOfMonth year month result).days[i]? =
          some ((jsOrZero (jsParseIntHex (jsSubstring result (2 + 4 * i) (2 + 4 * i + 4))) : ℚ) / 10))) ∧
    ChargerController.monthLastDay 2024 2 = 29 := by
  refine ⟨?_, fun result => ⟨?_, rfl, fun i hi => ?_⟩, by decide⟩
  · unfold ChargerController.consumptionOfMonthDate
    rw [if_neg (by omega)]
  · simp [ChargerController.sendGetPowerConsumptionRecordsOfMonth]
  · simp only [ChargerController.sendGetPowerConsumptionRecordsOfMonth]
    rw [List.getElem?_map, List.getElem?_range hi]
    rfl

/-- C5 witness: the amended theorem applied at the leap month (2024, 2) and a
concrete short payload. -/
theorem consumptionOfMonth_spec_witness :
    ChargerController.consumptionOfMonthDate 2024 2 =
      padStartZero 2 (intToHex (2024 - 2000)) ++ padStartZero 2 (intToHex (2 - 1)) ∧
    (ChargerController.sendGetPowerConsumptionRecordsOfMonth 2024 2 (toL ("01"))).days.length =
      ChargerController.monthLastDay 2024 2 ∧
    ChargerController.monthLastDay 2024 2 = 29 := by
  obtain ⟨h1, h2, h3⟩ := consumptionOfMonth_spec 2024 2 (by norm_num) (by norm_num) (by norm_num)
  exact ⟨h1, (h2 (toL ("01"))).1, h3⟩

/-- C4: in sendGetRealTimeData, once the V106 gate passes (payload length at
least 36 in one-phase mode, 46 in three-phase mode), maxCurrent, maxPower and
isReservation are read from the fixed absolute character offsets 46-48, 48-50
and 50-52 -- identical in both charger modes, not cursor-relative -- while the
cursor still advances by six characters, so the subsequent isMaximum and
isExtremeMode gates read at offsets 40 and 42 in one-phase mode and 50 and 52
in three-phase mode. -/
theorem realTimeData_fixed_offsets (r : List Char) :
    (36 ≤ r.length →
      (ChargerController.sendGetRealTimeData ChargerMode.onePhase r).maxCurrent =
          some (jsParseIntHex (jsSubstring r 46 48)) ∧
        (ChargerController.sendGetRealTimeData ChargerMode.onePhase r).maxPower =
          some (jsParseIntHex (jsSubstring r 48 50)) ∧
        (ChargerController.sendGetRealTimeData ChargerMode.onePhase r).isReservation =
          some (decide (jsParseIntHex (jsSubstring r 50 52) = some 1))) ∧
    (46 ≤ r.length →
      (ChargerController.sendGetRealTimeData ChargerMode.threePhase r).maxCurrent =
          some (jsParseIntHex (jsSubstring r 46 48)) ∧
        (ChargerController.sendGetRealTimeData ChargerMode.threePhase r).maxPower =
          some (jsParseIntHex (jsSubstring r 48 50)) ∧
        (ChargerController.sendGetRealTimeData ChargerMode.threePhase r).isReservation =
          some (decide (jsParseIntHex (jsSubstring r 50 52) = some 1))) ∧
    (42 ≤ r.length →
      (ChargerController.sendGetRealTimeData ChargerMode.onePhase r).isMaximum =
        some (decide (jsParseIntHex (jsSubstring r 40 42) = some 1))) ∧
    (44 ≤ r.length →
      (ChargerController.sendGetRealTimeData ChargerMode.onePhase r).isExtremeMode =
        some (decide (jsParseIntHex (jsSubstring r 42 44) = some 1))) ∧
    (52 ≤ r.length →
      (ChargerController.sendGetRealTimeData ChargerMode.threePhase r).isMaximum =
        some (decide (jsParseIntHex (jsSubstring r 50 52) = some 1))) ∧
    (54 ≤ r.length →
      (ChargerController.sendGetRealTimeData ChargerMode.threePhase r).isExtremeMode =
        some (decide (jsParseIntHex (jsSubstring r 52 54) = some 1))) := by
  refine ⟨fun h36 => ?_, fun h46 => ?_, fun h42 => ?_, fun h44 => ?_, fun h52 => ?_, fun h54 => ?_⟩
  · by_cases h42 : 42 ≤ r.length <;> by_cases h44 : 44 ≤ r.length <;>
      simp [ChargerController.sendGetRealTimeData, h36, h42, h44]
  · by_cases h52 : 52 ≤ r.length <;> by_cases h54 : 54 ≤ r.length <;>
      simp [ChargerController.sendGetRealTimeData, h46, h52, h54]
  · have h36 : 36 ≤ r.length := by omega
    by_cases h44 : 44 ≤ r.length <;>
      simp [ChargerController.sendGetRealTimeData, h36, h42, h44]
  · have h36 : 36 ≤ r.length := by omega
    have h42 : 42 ≤ r.length := by omega
    simp [ChargerController.sendGetRealTimeData, h36, h42, h44]
  · have h46 : 46 ≤ r.length := by omega
    by_cases h54 : 54 ≤ r.length <;>
      simp [ChargerController.sendGetRealTimeData, h46, h52, h54]
  · have h46 : 46 ≤ r.length := by omega
    have h52 : 52 ≤ r.length := by omega
    simp [ChargerController.sendGetRealTimeData, h46, h52, h54]

/-- C4 witness: the fixed-offset theorem applied to a concrete 54-character
payload, long enough for every gate in both modes. -/
theorem realTimeData_fixed_offsets_witness :
    (36 ≤ (List.replicate 54 '0').length ∧
      (ChargerController.sendGetRealTimeData ChargerMode.onePhase (List.replicate 54 '0')).maxCurrent =
        some (jsParseIntHex (jsSubstring (List.replicate 54 '0') 46 48))) ∧
    (54 ≤ (List.replicate 54 '0').length ∧
      (ChargerController.sendGetRealTimeData ChargerMode.threePhase (List.replicate 54 '0')).isExtremeMode =
        some (decide (jsParseIntHex (jsSubstring (List.replicate 54 '0') 52 54) = some 1))) :=
  ⟨⟨by decide, ((realTimeData_fixed_offsets (List.replicate 54 '0')).1 (by decide)).1⟩,
   ⟨by decide, (realTimeData_fixed_offsets (List.replicate 54 '0')).2.2.2.2.2 (by decide)⟩⟩

/-- Unfolding one event of a waiter run. -/
theorem runWaiter_cons (rc : List Char) (t : Option (CommandUtil.ParsedMessage → Bool))
    (s : Session.WaiterState) (e : Session.SockEvent) (evs : List Session.SockEvent) :
    Session.runWaiter rc t s (e :: evs) = Session.runWaiter rc t (Session.step rc t s e) evs :=
  rfl

/-- Inbound events that do not match leave the waiter state unchanged. -/
theorem runWaiter_noop (rc : List Char) (t : Option (CommandUtil.ParsedMessage → Bool))
    (s : Session.WaiterState) :
    ∀ pre : List Session.SockEvent,
      (∀ e ∈ pre, ∃ raw, e = Session.SockEvent.inbound raw ∧ Session.accepts rc t raw = none) →
      Session.runWaiter rc t s pre = s := by
  intro pre
  induction pre with
  | nil => intro _; rfl
  | cons e rest ih =>
    intro hpre
    obtain ⟨raw, he, hacc⟩ := hpre e (by simp)
    subst he
    rw [runWaiter_cons]
    have hstep : Session.step rc t s (Session.SockEvent.inbound raw) = s := by
      unfold Session.step
      by_cases hl : s.listening <;> simp [hl, hacc]
    rw [hstep]
    exact ih (fun e hee => hpre e (by simp [hee]))

/-- A waiter whose listener is removed and timer disarmed never changes. -/
theorem runWaiter_dead (rc : List Char) (t : Option (CommandUtil.ParsedMessage → Bool)) :
    ∀ (evs : List Session.SockEvent) (s : Session.WaiterState),
      s.listening = false → s.timerArmed = false → Session.runWaiter rc t s evs = s := by
  intro evs
  induction evs with
  | nil => intro s _ _; rfl
  | cons e rest ih =>
    intro s hl ht
    rw [runWaiter_cons]
    have hstep : Session.step rc t s e = s := by
      cases e with
      | inbound raw =>
        unfold Session.step
        simp [hl]
      | timerFire =>
        unfold Session.step
        simp [ht]
    rw [hstep]
    exact ih s hl ht

/-- A waiter whose timer is not armed can never end timed out. -/
theorem runWaiter_no_timeout (rc : List Char) (t : Option (CommandUtil.ParsedMessage → Bool)) :
    ∀ (evs : List Session.SockEvent) (s : Session.WaiterState),
      s.timerArmed = false → s.outcome ≠ Session.WaiterOutcome.timedOut →
      (Session.runWaiter rc t s evs).outcome ≠ Session.WaiterOutcome.timedOut := by
  intro evs
  induction evs with
  | nil => intro s _ ho; exact ho
  | cons e rest ih =>
    intro s ht ho
    rw [runWaiter_cons]
    cases e with
    | inbound raw =>
      by_cases hl : s.listening
      · cases hacc : Session.accepts rc t raw with
        | none =>
          have hstep : Session.step rc t s (Session.SockEvent.inbound raw) = s := by
            unfold Session.step
            simp [hl, hacc]
          rw [hstep]
          exact ih s ht ho
        | some m =>
          have hstep : Session.step rc t s (Session.SockEvent.inbound raw) =
              { listening := false, timerArmed := s.timerArmed,
                outcome := Session.settle s.outcome (Session.WaiterOutcome.resolved m) } := by
            unfold Session.step
            simp [hl, hacc]
          rw [hstep]
          refine ih _ (by simpa using ht) ?_
          cases hso : s.outcome <;> simp [Session.settle, hso] <;> simp [hso] at ho
      · have hstep : Session.step rc t s (Session.SockEvent.inbound raw) = s := by
          unfold Session.step
          simp [hl]
        rw [hstep]
        exact ih s ht ho
    | timerFire =>
      have hstep : Session.step rc t s Session.SockEvent.timerFire = s := by
        unfold Session.step
        simp [ht]
      rw [hstep]
      exact ih s ht ho

/-- C6: with a positive configured timeout, when every event before the timer
fires is an inbound datagram that does not match (parse failure, wrong
command, or rejected by the tester), the waiter ends timed out and its
listener is deregistered, whatever arrives afterwards -- in particular a
matching frame arriving after the timer fired cannot resolve the failed
waiter.  With a zero configured timeout the timer is never armed and the
waiter can never time out. -/
theorem sendCommand_timeout_spec (resultCode : List Char)
    (resultTester : Option (CommandUtil.ParsedMessage → Bool)) :
    (∀ timeout : Nat, 0 < timeout →
      ∀ pre post : List Session.SockEvent,
        (∀ e ∈ pre, ∃ raw, e = Session.SockEvent.inbound raw ∧
            Session.accepts resultCode resultTester raw = none) →
        (Session.runWaiter resultCode resultTester (Session.waiterInit timeout)
            (pre ++ Session.SockEvent.timerFire :: post)).outcome =
          Session.WaiterOutcome.timedOut ∧
        (Session.runWaiter resultCode resultTester (Session.waiterInit timeout)
            (pre ++ Session.SockEvent.timerFire :: post)).listening = false) ∧
    (∀ evs : List Session.SockEvent,
        (Session.runWaiter resultCode resultTester (Session.waiterInit 0) evs).outcome ≠
          Session.WaiterOutcome.timedOut) := by
  constructor
  · intro timeout ht pre post hpre
    have happ : Session.runWaiter resultCode resultTester (Session.waiterInit timeout)
        (pre ++ Session.SockEvent.timerFire :: post) =
        Session.runWaiter resultCode resultTester
          (Session.step resultCode resultTester
            (Session.runWaiter resultCode resultTester (Session.waiterInit timeout) pre)
            Session.SockEvent.timerFire) post := by
      unfold Session.runWaiter
      rw [List.foldl_append]
      rfl
    rw [happ, runWaiter_noop _ _ _ pre hpre]
    have hfire : Session.step resultCode resultTester (Session.waiterInit timeout)
        Session.SockEvent.timerFire =
        { listening := false, timerArmed := false,
          outcome := Session.WaiterOutcome.timedOut } := by
      unfold Session.step Session.waiterInit Session.settle
      simp [ht]
    rw [hfire, runWaiter_dead _ _ post _ rfl rfl]
    exact ⟨rfl, rfl⟩
  · intro evs
    refine runWaiter_no_timeout _ _ evs _ ?_ ?_
    · simp [Session.waiterInit]
    · simp [Session.waiterInit]

/-- C6 witness: the timeout theorem applied to a concrete run with one
unparsable datagram before the timer and a valid matching frame after it; the
frame does match the waiter, yet the outcome stays timed out.  The zero
timeout part is applied to a lone timer event. -/
theorem sendCommand_timeout_spec_witness :
    (Session.accepts (toL ("01")) none (toL ("55aa00010b010c"))).isSome = true ∧
    (Session.runWaiter (toL ("01")) none (Session.waiterInit 1)
        ([Session.SockEvent.inbound (toL ("zz"))] ++ Session.SockEvent.timerFire ::
          [Session.SockEvent.inbound (toL ("55aa00010b010c"))])).outcome =
      Session.WaiterOutcome.timedOut ∧
    (Session.runWaiter (toL ("01")) none (Session.waiterInit 1)
        ([Session.SockEvent.inbound (toL ("zz"))] ++ Session.SockEvent.timerFire ::
          [Session.SockEvent.inbound (toL ("55aa00010b010c"))])).listening = false ∧
    (Session.runWaiter (toL ("01")) none (Session.waiterInit 0)
        [Session.SockEvent.timerFire]).outcome ≠ Session.WaiterOutcome.timedOut := by
  obtain ⟨h1, h2⟩ := (sendCommand_timeout_spec (toL ("01")) none).1 1 (by norm_num)
    [Session.SockEvent.inbound (toL ("zz"))]
    [Session.SockEvent.inbound (toL ("55aa00010b010c"))]
    (by
      intro e he
      rw [List.mem_singleton] at he
      exact ⟨toL ("zz"), he, by decide⟩)
  exact ⟨by decide, h1, h2, (sendCommand_timeout_spec (toL ("01")) none).2 [Session.SockEvent.timerFire]⟩

/-- C8 counterexample: with stored password abc (no parsable digits), the
credential embedded at characters 10-18 of the compiled frame is the literal
string 00000NaN, not the default encoding 0001e240. -/
theorem credential_invalid_counterexample :
    jsSubstring (CommandUtil.compileMessage (some (toL ("abc"))) (toL ("04"))) 10 18 =
      toL ("00000NaN") ∧
    toL ("00000NaN") ≠ toL ("0001e240") :=
  ⟨by decide, by decide⟩

/-- C8 amended: every compiled frame embeds the encoded credential between the
length byte and the command code; an unset or empty stored password encodes as
the default 123456, rendered 0001e240; a stored password whose longest decimal
digit prefix parses to the value v encodes as v in hex zero-padded to 8 digits
(exactly 8 digits for v below 2 to the 32); a stored password with no parsable
decimal prefix encodes as the literal string 00000NaN, not as the default. -/
theorem credential_encoding :
    (∀ (pw : Option (List Char)) (cmd : List Char),
      CommandUtil.compileMessage pw cmd =
        toL ("55aa") ++ toL ("0001") ++
          padStartZero 2 (natToHex ((4 + 4 + (CommandUtil.encodedCredential pw).length + cmd.length) / 2 + 2)) ++
          CommandUtil.encodedCredential pw ++ cmd ++
          CommandUtil.checksum (CommandUtil.frameBody pw cmd)) ∧
    (∀ pw : Option (List Char), pw = none ∨ pw = some [] →
      CommandUtil.encodedCredential pw = toL ("0001e240")) ∧
    (∀ (pw : Option (List Char)) (v : Nat),
      jsParseInt10 (CommandUtil.pwOrDefault pw) = some ((v : Nat) : Int) →
      CommandUtil.encodedCredential pw = padStartZero 8 (natToHex v) ∧
      (v < 2 ^ 32 → (CommandUtil.encodedCredential pw).length = 8)) ∧
    (∀ pw : Option (List Char),
      jsParseInt10 (CommandUtil.pwOrDefault pw) = none →
      CommandUtil.encodedCredential pw = toL ("00000NaN")) := by
  refine ⟨?_, ?_, ?_, ?_⟩
  · intro pw cmd
    unfold CommandUtil.compileMessage CommandUtil.frameBody
    simp [List.append_assoc]
  · rintro pw (rfl | rfl) <;> decide
  · intro pw v hv
    have hshape : CommandUtil.encodedCredential pw = padStartZero 8 (natToHex v) := by
      unfold CommandUtil.encodedCredential
      rw [hv]
      unfold jsNumToHexString intToHex
      dsimp only
      rw [if_neg (not_lt.mpr (Int.natCast_nonneg _)), Int.toNat_natCast]
    refine ⟨hshape, fun hlt => ?_⟩
    rw [hshape, padStartZero_length]
    have h16 : (16 : Nat) ^ 8 = 2 ^ 32 := by norm_num
    have := natToHex_length_le (n := v) (k := 8) (by omega) (by omega)
    omega
  · intro pw h
    unfold CommandUtil.encodedCredential
    rw [h]
    decide

/-- C8 witness: the credential characterization applied at an unset password,
the numeric password 9, and the non-numeric password abc. -/
theorem credential_encoding_witness :
    CommandUtil.compileMessage none (toL ("04")) =
      toL ("55aa") ++ toL ("0001") ++
        padStartZero 2 (natToHex ((4 + 4 + (CommandUtil.encodedCredential none).length + (toL ("04")).length) / 2 + 2)) ++
        CommandUtil.encodedCredential none ++ toL ("04") ++
        CommandUtil.checksum (CommandUtil.frameBody none (toL ("04"))) ∧
    CommandUtil.encodedCredential none = toL ("0001e240") ∧
    CommandUtil.encodedCredential (some (toL ("9"))) = padStartZero 8 (natToHex 9) ∧
    CommandUtil.encodedCredential (some (toL ("abc"))) = toL ("00000NaN") :=
  ⟨credential_encoding.1 none (toL ("04")),
    credential_encoding.2.1 none (Or.inl rfl),
    (credential_encoding.2.2.1 (some (toL ("9"))) 9 (by decide)).1,
    credential_encoding.2.2.2 (some (toL ("abc"))) (by decide)⟩

/-- C1 amended: for a hex command string of wire-realistic length (so the
length byte fits one byte) and a credential rendering to 8 hex digits,
parseResult of compileMessage always succeeds, but the parsed command field is
the first two digits of the encoded credential, and the parsed data field is
the remaining six credential digits followed by the command string and the
frame checksum. -/
theorem compile_parse_roundTrip_amended (pw : Option (List Char)) (cmd : List Char)
    (hpw8 : (CommandUtil.encodedCredential pw).length = 8)
    (hpwhex : AllHex (CommandUtil.encodedCredential pw))
    (hcmdhex : AllHex cmd) (hcmdlen : cmd.length ≤ 488) :
    CommandUtil.parseResult (CommandUtil.compileMessage pw cmd) =
      some { raw := CommandUtil.compileMessage pw cmd,
             command := (CommandUtil.encodedCredential pw).take 2,
             data := (CommandUtil.encodedCredential pw).drop 2 ++ cmd ++
               CommandUtil.checksum (CommandUtil.frameBody pw cmd) } := by
  have hBdef : CommandUtil.frameBody pw cmd =
      toL ("55aa") ++ toL ("0001") ++
        padStartZero 2 (natToHex ((4 + 4 + (CommandUtil.encodedCredential pw).length + cmd.length) / 2 + 2)) ++
        CommandUtil.encodedCredential pw ++ cmd := rfl
  have h16sq : (16 : Nat) ^ 2 = 256 := by norm_num
  have hlh2 : (padStartZero 2 (natToHex ((4 + 4 + (CommandUtil.encodedCredential pw).length + cmd.length) / 2 + 2))).length = 2 := by
    rw [padStartZero_length]
    have hlt : (4 + 4 + (CommandUtil.encodedCredential pw).length + cmd.length) / 2 + 2 < 16 ^ 2 := by
      rw [hpw8, h16sq]
      omega
    have := natToHex_length_le (by omega) hlt
    omega
  have hBhex : AllHex (CommandUtil.frameBody pw cmd) := by
    rw [hBdef]
    refine allHex_append (allHex_append (allHex_append (allHex_append ?_ ?_) ?_) hpwhex) hcmdhex
    · decide
    · decide
    · exact padStartZero_allHex (natToHex_allHex _) 2
  have hBlen : (CommandUtil.frameBody pw cmd).length = 18 + cmd.length := by
    rw [hBdef]
    simp only [List.length_append, hlh2]
    have h1 : (toL ("55aa")).length = 4 := rfl
    have h2 : (toL ("0001")).length = 4 := rfl
    rw [h1, h2, hpw8]
  have hchk2 : (CommandUtil.checksum (CommandUtil.frameBody pw cmd)).length = 2 :=
    (checksum_allHex_shape hBhex).1
  have hFlen : (CommandUtil.frameBody pw cmd ++ CommandUtil.checksum (CommandUtil.frameBody pw cmd)).length =
      20 + cmd.length := by
    rw [List.length_append, hBlen, hchk2]
    omega
  have hP10 : (toL ("55aa") ++ toL ("0001") ++
      padStartZero 2 (natToHex ((4 + 4 + (CommandUtil.encodedCredential pw).length + cmd.length) / 2 + 2))).length = 10 := by
    simp only [List.length_append, hlh2]
    rfl
  have hsplit : CommandUtil.frameBody pw cmd ++ CommandUtil.checksum (CommandUtil.frameBody pw cmd) =
      (toL ("55aa") ++ toL ("0001") ++
        padStartZero 2 (natToHex ((4 + 4 + (CommandUtil.encodedCredential pw).length + cmd.length) / 2 + 2))) ++
      (CommandUtil.encodedCredential pw ++
        (cmd ++ CommandUtil.checksum (CommandUtil.frameBody pw cmd))) := by
    generalize CommandUtil.checksum (CommandUtil.frameBody pw cmd) = K
    conv_lhs => rw [hBdef]
    simp [List.append_assoc]
  have hpref : (toL ("55aa")).isPrefixOf
      (CommandUtil.frameBody pw cmd ++ CommandUtil.checksum (CommandUtil.frameBody pw cmd)) = true := by
    rw [List.isPrefixOf_iff_prefix]
    refine ⟨toL ("0001") ++
      padStartZero 2 (natToHex ((4 + 4 + (CommandUtil.encodedCredential pw).length + cmd.length) / 2 + 2)) ++
      CommandUtil.encodedCredential pw ++ cmd ++
      CommandUtil.checksum (CommandUtil.frameBody pw cmd), ?_⟩
    generalize CommandUtil.checksum (CommandUtil.frameBody pw cmd) = K
    conv_rhs => rw [hBdef]
    simp [List.append_assoc]
  have htc : CommandUtil.testChecksum
      (CommandUtil.frameBody pw cmd ++ CommandUtil.checksum (CommandUtil.frameBody pw cmd)) = true :=
    testChecksum_self_append hBhex
  unfold CommandUtil.compileMessage CommandUtil.parseResult
  rw [if_neg (List.ne_nil_of_length_pos (by omega))]
  rw [if_neg (by omega)]
  rw [if_neg (by simp [hpref])]
  rw [if_neg (by simp [htc])]
  simp only [Option.some.injEq, CommandUtil.ParsedMessage.mk.injEq]
  refine ⟨trivial, ?_, ?_⟩
  · rw [hsplit, jsSubstring_append_ge (by omega) (by omega), hP10]
    simp [jsSubstring, List.take_append_eq_append_take, hpw8]
  · rw [hsplit, drop_append_ge (by omega), hP10]
    simp [List.drop_append_eq_append_drop, hpw8, List.append_assoc]

/-- C1 amended witness: the theorem applied at the default credential and the
get-model command 04. -/
theorem compile_parse_roundTrip_amended_witness :
    CommandUtil.parseResult (CommandUtil.compileMessage none (toL ("04"))) =
      some { raw := CommandUtil.compileMessage none (toL ("04")),
             command := (CommandUtil.encodedCredential none).take 2,
             data := (CommandUtil.encodedCredential none).drop 2 ++ toL ("04") ++
               CommandUtil.checksum (CommandUtil.frameBody none (toL ("04"))) } :=
  compile_parse_roundTrip_amended none (toL ("04")) (by decide) (by decide) (by decide) (by decide)

end Bcp
